import Mathlib

/-!
Verification of the KernelSU_Build_Test patch scripts.

The repository consists of three Python scripts that perform literal text
search-and-replace on kernel source files:
  - patches/fix_namei.py        (four fixes for fs/namei.c, and the
                                 nested-depth scanner remove_ifdef_block)
  - patches/fix_task_mmu_pagemap.py  (guard-block injection for task_mmu.c)
  - patches/susfs_reject_fix.py (eight literal replacements over five files)

We model file text as `List Char` (Python strings are sequences of unicode
code points, which `Char` matches).  Python's `str.find`, `in`, `str.replace`,
`str.count`, slicing and the `re.finditer` loop of `remove_ifdef_block` are
each embedded as executable Lean functions, translated from the source.
File I/O is modelled by passing the file content explicitly: a missing file
is `Option.none`, and the result of a fixer records whether it writes and
what it returns, so process exit codes can be computed.
-/

/-- Python `\s` on ASCII text: the whitespace class used by the
`re.finditer` pattern in `remove_ifdef_block` (fix_namei.py line 47). -/
def isPyWS (c : Char) : Bool :=
  c = ' ' || c = '\t' || c = '\n' || c = '\r' || c = '\x0b' || c = '\x0c'

/-- Python `\w` (ASCII part): used for the `\b` word boundary after `if`. -/
def isWordChar (c : Char) : Bool :=
  c.isAlpha || c.isDigit || c = '_'

/-- `\b` after a keyword: the next character (if any) is not a word char. -/
def wordBoundary : List Char → Bool
  | [] => true
  | c :: _ => !(isWordChar c)

/-- The six keywords of the token pattern
`#\s*(?:ifdef|ifndef|if\b|elif|else|endif)` in fix_namei.py line 47. -/
inductive CondTok
  | ifdef | ifndef | ifkw | elifkw | elsekw | endif
deriving DecidableEq, BEq, Repr

/-- The literal keyword text of each alternative. -/
def kwString : CondTok → List Char
  | CondTok.ifdef => ("ifdef".data)
  | CondTok.ifndef => ("ifndef".data)
  | CondTok.ifkw => ("if".data)
  | CondTok.elifkw => ("elif".data)
  | CondTok.elsekw => ("else".data)
  | CondTok.endif => ("endif".data)

/-- Try the six keyword alternatives, in the order the regex alternation
tries them (`ifdef`, `ifndef`, `if\b`, `elif`, `else`, `endif`).
`if` carries the `\b` word-boundary test. -/
def matchKw (l : List Char) : Option CondTok :=
  if (kwString CondTok.ifdef).isPrefixOf l then some CondTok.ifdef
  else if (kwString CondTok.ifndef).isPrefixOf l then some CondTok.ifndef
  else if (kwString CondTok.ifkw).isPrefixOf l && wordBoundary (l.drop 2) then some CondTok.ifkw
  else if (kwString CondTok.elifkw).isPrefixOf l then some CondTok.elifkw
  else if (kwString CondTok.elsekw).isPrefixOf l then some CondTok.elsekw
  else if (kwString CondTok.endif).isPrefixOf l then some CondTok.endif
  else none

/-- One attempted match of the token pattern at the head of `l`.
Returns the keyword kind, whether the whitespace run after `#` consists of
spaces only (the source classifies a match via `m.group().replace(' ', '')`,
which removes spaces but not tabs, so only matches whose `\s*` part is all
spaces compare equal to a plain token such as `#endif`), and the length of
the whole match (`m.end() - m.start()`). -/
def tryTok : List Char → Option (CondTok × Bool × Nat)
  | [] => none
  | c :: rest =>
    if c = '#' then
      match matchKw (rest.dropWhile isPyWS) with
      | some k =>
        some (k, (rest.takeWhile isPyWS).all (fun x => x = ' '),
              1 + (rest.takeWhile isPyWS).length + (kwString k).length)
      | none => none
    else none

/-- Shift the end offsets of a token stream by `n`. -/
def shiftTok (n : Nat) (ts : List (CondTok × Bool × Nat)) : List (CondTok × Bool × Nat) :=
  ts.map (fun t => (t.1, t.2.1, t.2.2 + n))

/-- Every lexical match of the token pattern in `l`, with its kind, its
all-spaces flag and its end offset.  This is the specification-side token
stream ("walk forward over every lexical match of the conditional-token
pattern", spec section 4.1 step 2); a match can only start at a `#`, and a
match contains no `#` after its first character, so scanning every position
lists exactly the non-overlapping matches `re.finditer` produces. -/
def tokenStream : List Char → List (CondTok × Bool × Nat)
  | [] => []
  | c :: rest =>
    match tryTok (c :: rest) with
    | some (k, sp, len) => (k, sp, len) :: shiftTok 1 (tokenStream rest)
    | none => shiftTok 1 (tokenStream rest)

/-- Specification-side depth walk over a token stream (spec section 4.1
steps 3-5): `if`/`ifdef`/`ifndef` increment the depth, `endif` decrements
it, `else`/`elif` leave it unchanged, and the first `endif` that brings the
depth to exactly 0 yields its end offset. -/
def specScan : List (CondTok × Bool × Nat) → Int → Option Nat
  | [], _ => none
  | (k, sp, e) :: ts, depth =>
    if sp && (k == CondTok.ifdef || k == CondTok.ifndef || k == CondTok.ifkw) then
      specScan ts (depth + 1)
    else if sp && (k == CondTok.endif) then
      if depth - 1 = 0 then some e else specScan ts (depth - 1)
    else specScan ts depth

/-- Extend an end offset by one when the character right after it is a
newline (spec section 4.1 step 4, fix_namei.py lines 56-57). -/
def extendNL (l : List Char) (e : Nat) : Nat :=
  match l.drop e with
  | c :: _ => if c = '\n' then e + 1 else e
  | [] => e

/-- Specification-side block end: the position immediately after the first
depth-zero-crossing `endif`, extended over a trailing newline. -/
def specBlockEnd (l : List Char) : Option Nat :=
  (specScan (tokenStream l) 0).map (extendNL l)

/-- The fused scanner of `remove_ifdef_block` (fix_namei.py lines 44-59):
walk the `re.finditer` matches, keeping an integer depth, and stop at the
first `#endif` that brings the depth to 0, returning the offset just past
it (plus a trailing newline).  After a match of length `len` the scan
resumes at the match end: `rest.drop (len - 1)` is `(c :: rest).drop len`,
since a match is at least one character long. -/
def scanBlockEnd : List Char → Int → Option Nat
  | [], _ => none
  | c :: rest, depth =>
    match tryTok (c :: rest) with
    | none => (scanBlockEnd rest depth).map (fun r => r + 1)
    | some (k, sp, len) =>
      if sp && (k == CondTok.ifdef || k == CondTok.ifndef || k == CondTok.ifkw) then
        (scanBlockEnd (rest.drop (len - 1)) (depth + 1)).map (fun r => r + len)
      else if sp && (k == CondTok.endif) then
        if depth - 1 = 0 then
          some (len + (match rest.drop (len - 1) with
                       | c2 :: _ => if c2 = '\n' then 1 else 0
                       | [] => 0))
        else (scanBlockEnd (rest.drop (len - 1)) (depth - 1)).map (fun r => r + len)
      else (scanBlockEnd (rest.drop (len - 1)) depth).map (fun r => r + len)
termination_by l _ => l.length
decreasing_by
  all_goals simp [List.length_drop]
  all_goals omega

/-- Python `str.find`: index of the first occurrence of `pat` in `s`, or
`none` (Python returns -1).  An empty pattern is found at index 0. -/
def pyFind : List Char → List Char → Option Nat
  | [], pat => if pat = [] then some 0 else none
  | c :: rest, pat =>
    if pat.isPrefixOf (c :: rest) then some 0
    else (pyFind rest pat).map (fun r => r + 1)

/-- Python `pat in s` for strings: substring containment. -/
def pyContains (s pat : List Char) : Bool :=
  (pyFind s pat).isSome

/-- Python `s.replace(old, new, 1)`: replace the first occurrence only. -/
def replaceOne (s pat rep : List Char) : List Char :=
  match pyFind s pat with
  | none => s
  | some i => s.take i ++ rep ++ s.drop (i + pat.length)

/-- Python `s.replace('', rep)`: the empty pattern matches between all
characters. -/
def replaceAllEmpty (rep : List Char) : List Char → List Char
  | [] => rep
  | c :: rest => rep ++ c :: replaceAllEmpty rep rest

/-- Worker for `replaceAll`: scan left to right; on a match emit `rep` and
skip the matched span (the skip counter consumes the remaining
`pat.length - 1` characters of a match without emitting them, so the scan
resumes right after the match, as Python's non-overlapping replace does). -/
def replaceAllAux (pat rep : List Char) : List Char → Nat → List Char
  | [], _ => []
  | _ :: rest, skip + 1 => replaceAllAux pat rep rest skip
  | c :: rest, 0 =>
    if pat.isPrefixOf (c :: rest) then rep ++ replaceAllAux pat rep rest (pat.length - 1)
    else c :: replaceAllAux pat rep rest 0

/-- Python `s.replace(old, new)`: replace all non-overlapping occurrences,
left to right. -/
def replaceAll (s pat rep : List Char) : List Char :=
  if pat = [] then replaceAllEmpty rep s else replaceAllAux pat rep s 0

/-- Worker for `countOcc`, with the same skip-counter scheme as
`replaceAllAux`. -/
def countOccAux (pat : List Char) : List Char → Nat → Nat
  | [], _ => 0
  | _ :: rest, skip + 1 => countOccAux pat rest skip
  | c :: rest, 0 =>
    if pat.isPrefixOf (c :: rest) then 1 + countOccAux pat rest (pat.length - 1)
    else countOccAux pat rest 0

/-- Python `s.count(pat)`: number of non-overlapping occurrences. -/
def countOcc (s pat : List Char) : Nat :=
  if pat = [] then s.length + 1 else countOccAux pat s 0

/-- Python `s.split('\n', 1)` for a string known to contain a newline:
the part before the first newline and the part after it. -/
def splitNL1 (s : List Char) : List Char × List Char :=
  match pyFind s ('\n' :: []) with
  | some i => (s.take i, s.drop (i + 1))
  | none => (s, [])

/-! ## fix_namei.py -/

/-- A fixer either leaves the file alone or writes new content. -/
inductive FileAction
  | noWrite
  | write (content : List Char)
deriving DecidableEq

/-- fix_namei.py line 89: presence of this substring means the include was
already added. -/
def SUSFS_DEF_H : List Char := ("susfs_def.h".data)

/-- fix_namei.py line 92, first anchor for the include block. -/
def ANCHOR_UACCESS : List Char := ("#include <linux/uaccess.h>".data)

/-- fix_namei.py line 92, fallback anchor for the include block. -/
def ANCHOR_MOUNT_H : List Char := ("#include \"mount.h\"".data)

/-- fix_namei.py lines 84-88. -/
def INCLUDE_BLOCK : List Char :=
  ("#if defined(CONFIG_KSU_SUSFS_SUS_PATH) || defined(CONFIG_KSU_SUSFS_OPEN_REDIRECT)\n#include <linux/susfs_def.h>\n#endif".data)

/-- fix_namei.py line 106. -/
def WRONG : List Char := ("filp->f_inode->i_state & BIT_OPEN_REDIRECT".data)

/-- fix_namei.py line 107. -/
def CORRECT : List Char := ("filp->f_inode->i_mapping->flags & BIT_OPEN_REDIRECT".data)

/-- fix_namei.py line 120. -/
def SIG3 : List Char :=
  ("#ifdef CONFIG_KSU_SUSFS_SUS_PATH\n\tif (is_nd_flags_lookup_last && !found_sus_path)".data)

/-- fix_namei.py line 132. -/
def SIG4 : List Char :=
  ("#ifdef CONFIG_KSU_SUSFS_SUS_PATH\n\t\t\tif (nd->state & ND_STATE_LAST_SDCARD_SUS_PATH)".data)

/-- fix_namei.py lines 37-65, `remove_ifdef_block(src, start_signature)`:
locate the signature, scan forward with `scanBlockEnd`, and splice the text
before the signature onto the text after the block end.  Both "signature
absent" (line 40) and "no zero-crossing endif" (line 61) return the input
unchanged with `False`. -/
def remove_ifdef_block (src sig : List Char) : List Char × Bool :=
  match pyFind src sig with
  | none => (src, false)
  | some idx =>
    match scanBlockEnd (src.drop idx) 0 with
    | none => (src, false)
    | some e => (src.take idx ++ src.drop (idx + e), true)

/-- Executable twin of `remove_ifdef_block` that uses the structurally
recursive specification scanner; `remove_ifdef_block_eq` proves the two
pointwise equal, which is how concrete runs are evaluated. -/
def removeIfdefBlockE (src sig : List Char) : List Char × Bool :=
  match pyFind src sig with
  | none => (src, false)
  | some idx =>
    match specBlockEnd (src.drop idx) with
    | none => (src, false)
    | some e => (src.take idx ++ src.drop (idx + e), true)

/-- Fix 1 (fix_namei.py lines 84-101): add the susfs_def.h include block
after the uaccess include, or before the mount.h include. -/
def fixNamei1 (src : List Char) : List Char :=
  if pyContains src SUSFS_DEF_H then src
  else if pyContains src ANCHOR_UACCESS then
    replaceOne src ANCHOR_UACCESS (ANCHOR_UACCESS ++ ('\n' :: []) ++ INCLUDE_BLOCK)
  else if pyContains src ANCHOR_MOUNT_H then
    replaceOne src ANCHOR_MOUNT_H (INCLUDE_BLOCK ++ ('\n' :: []) ++ ANCHOR_MOUNT_H)
  else src

/-- The three reported outcomes of fix 2 (fix_namei.py lines 108-114). -/
inductive Fix2Status
  | applied
  | alreadyCorrect
  | notFound
deriving DecidableEq

/-- Fix 2 (fix_namei.py lines 106-114): replace every occurrence of the
wrong field access (`src.replace(WRONG, CORRECT)` with no count). -/
def fixNamei2 (src : List Char) : List Char × Fix2Status :=
  if pyContains src WRONG then (replaceAll src WRONG CORRECT, Fix2Status.applied)
  else if pyContains src CORRECT then (src, Fix2Status.alreadyCorrect)
  else (src, Fix2Status.notFound)

/-- Fix 3 (fix_namei.py lines 120-126): remove the misplaced lookup_slow
block; on failure `remove_ifdef_block` hands back the unchanged text. -/
def fixNamei3 (src : List Char) : List Char :=
  if pyContains src SIG3 then (remove_ifdef_block src SIG3).1 else src

/-- Fix 4 (fix_namei.py lines 132-138). -/
def fixNamei4 (src : List Char) : List Char :=
  if pyContains src SIG4 then (remove_ifdef_block src SIG4).1 else src

/-- The whole text transformation of one fix_namei pass (fixes 1-4 in
order, each on the previous result). -/
def fixNameiText (src : List Char) : List Char :=
  fixNamei4 (fixNamei3 (fixNamei2 (fixNamei1 src)).1)

/-- fix_namei.py lines 68-155: a missing file is a no-op returning True
(lines 71-73); otherwise the file is rewritten only when the transformed
text differs from what was read (lines 143-148); the function returns True
on every path. -/
def fix_namei : Option (List Char) → FileAction × Bool
  | none => (FileAction.noWrite, true)
  | some src =>
    if fixNameiText src = src then (FileAction.noWrite, true)
    else (FileAction.write (fixNameiText src), true)

/-- fix_namei.py lines 158-164: exit 1 unless exactly one argument is
given (`len(sys.argv) == 2`), else exit `0 if ok else 1`. -/
def fixNameiMainExit (argc : Nat) (file : Option (List Char)) : Nat :=
  if argc ≠ 2 then 1
  else if (fix_namei file).2 then 0 else 1

/-! ## fix_task_mmu_pagemap.py -/

/-- Result of running Python code that may raise an uncaught exception. -/
inductive PyResult (α : Type)
  | ok (a : α)
  | valueError
deriving DecidableEq

/-- fix_task_mmu_pagemap.py lines 23-34. -/
def GUARD_BLOCK : List Char :=
  ("#ifdef CONFIG_KSU_SUSFS_SUS_MAP\n\t\tvma = find_vma(mm, start_vaddr);\n\t\tif (vma && vma->vm_file) \x7b\n\t\t\tstruct inode *inode = file_inode(vma->vm_file);\n\t\t\tif (unlikely(inode->i_state & BIT_SUS_MAPS) && susfs_is_current_proc_umounted()) \x7b\n\t\t\t\tpm.show_pfn = false;\n\t\t\t\tpm.buffer->pme = 0;\n\t\t\t\x7d\n\t\t\x7d\n#endif\n".data)

/-- fix_task_mmu_pagemap.py line 47, first pre-check substring. -/
def FINDVMA : List Char := ("find_vma(mm, start_vaddr)".data)

/-- fix_task_mmu_pagemap.py line 47, the `src.index` argument. -/
def PAGEMAP : List Char := ("pagemap_read".data)

/-- fix_task_mmu_pagemap.py line 47, second pre-check substring. -/
def BITSUS : List Char := ("BIT_SUS_MAPS".data)

/-- fix_task_mmu_pagemap.py line 58. -/
def ANCHOR_MODERN : List Char :=
  ("\t\tmmap_read_unlock(mm);\n\t\tstart_vaddr = end;".data)

/-- fix_task_mmu_pagemap.py line 60. -/
def ANCHOR_LEGACY : List Char :=
  ("\t\tup_read(&mm->mmap_sem);\n\t\tstart_vaddr = end;".data)

/-- fix_task_mmu_pagemap.py line 69. -/
def PR_SIG : List Char := ("static ssize_t pagemap_read(".data)

/-- fix_task_mmu_pagemap.py line 74. -/
def NLSTATIC : List Char := ("\nstatic ".data)

/-- fix_task_mmu_pagemap.py lines 88-92: split the anchor at its first
newline and insert the guard block between the two lines, replacing the
first occurrence of the anchor. -/
def applyGuard (src anchor : List Char) : List Char :=
  replaceOne src anchor
    ((splitNL1 anchor).1 ++ ('\n' :: []) ++ GUARD_BLOCK ++ (splitNL1 anchor).2)

/-- fix_task_mmu_pagemap.py lines 73-75: the `pagemap_read` function
segment, from `pr_idx` to the next `\nstatic ` (or to the end of the
file), given `pr_idx` as computed on line 69. -/
def taskMmuSegment (src : List Char) (prIdx : Nat) : List Char :=
  match pyFind (src.drop (prIdx + 1)) NLSTATIC with
  | none => src.drop prIdx
  | some j => (src.take (prIdx + 1 + j)).drop prIdx

/-- fix_task_mmu_pagemap.py lines 62-98: anchor selection (unique modern
anchor, unique legacy anchor, or a candidate found inside the
`pagemap_read` segment), then injection and write; `[FAIL]` paths return
False without writing. -/
def taskMmuAnchorStage (src : List Char) : PyResult (FileAction × Bool) :=
  if countOcc src ANCHOR_MODERN = 1 then
    PyResult.ok (FileAction.write (applyGuard src ANCHOR_MODERN), true)
  else if countOcc src ANCHOR_LEGACY = 1 then
    PyResult.ok (FileAction.write (applyGuard src ANCHOR_LEGACY), true)
  else
    match pyFind src PR_SIG with
    | none => PyResult.ok (FileAction.noWrite, false)
    | some prIdx =>
      if pyContains (taskMmuSegment src prIdx) ANCHOR_MODERN then
        PyResult.ok (FileAction.write (applyGuard src ANCHOR_MODERN), true)
      else if pyContains (taskMmuSegment src prIdx) ANCHOR_LEGACY then
        PyResult.ok (FileAction.write (applyGuard src ANCHOR_LEGACY), true)
      else PyResult.ok (FileAction.noWrite, false)

/-- fix_task_mmu_pagemap.py lines 36-98.  A missing file prints `[SKIP]`
but returns False (lines 39-41).  The already-patched pre-check (line 47)
evaluates `src.index('pagemap_read')` whenever the `find_vma` substring is
present, raising ValueError when `pagemap_read` is absent; when the check
passes within the first 4000 characters after `pagemap_read`, the fixer
skips with True (lines 49-54). -/
def fix_task_mmu : Option (List Char) → PyResult (FileAction × Bool)
  | none => PyResult.ok (FileAction.noWrite, false)
  | some src =>
    if pyContains src FINDVMA then
      match pyFind src PAGEMAP with
      | none => PyResult.valueError
      | some pr =>
        if pyContains (src.drop pr) BITSUS then
          if pyContains ((src.drop pr).take 4000) BITSUS
              && pyContains ((src.drop pr).take 4000) FINDVMA then
            PyResult.ok (FileAction.noWrite, true)
          else taskMmuAnchorStage src
        else taskMmuAnchorStage src
    else taskMmuAnchorStage src

/-- fix_task_mmu_pagemap.py lines 101-109: exit `0 if ok else 1`; an
uncaught exception likewise makes the interpreter exit nonzero (1). -/
def fixTaskMmuExit (file : Option (List Char)) : Nat :=
  match fix_task_mmu file with
  | PyResult.ok (_, ok) => if ok then 0 else 1
  | PyResult.valueError => 1

/-! ## susfs_reject_fix.py -/

/-- The four reporting outcomes of `fix` (susfs_reject_fix.py lines 49-66):
`[OK]` applied, `[SKIP]` already applied, `[FAIL]` required context missing,
`[WARN]` optional context missing. -/
inductive FixOutcome
  | applied
  | skipped
  | failedRequired
  | warnOptional
deriving DecidableEq, Repr

/-- susfs_reject_fix.py lines 49-66, `fix(path, old, new, label, required)`:
if `old` occurs, write `content.replace(old, new, 1)` and return True; if
`new` occurs, skip and return True; otherwise report `[FAIL]` (required) or
`[WARN]` (optional) and return False.  The first component is the file
content after the call. -/
def fixStep (content old new : List Char) (required : Bool) :
    List Char × Bool × FixOutcome :=
  if pyContains content old then
    (replaceOne content old new, true, FixOutcome.applied)
  else if pyContains content new then
    (content, true, FixOutcome.skipped)
  else if required then
    (content, false, FixOutcome.failedRequired)
  else
    (content, false, FixOutcome.warnOptional)

/-- susfs_reject_fix.py lines 79-89 (fix 1, include/linux/mount.h), `old`. -/
def F1_OLD : List Char :=
  ("\tANDROID_KABI_RESERVE(4);\n\x7d __randomize_layout;".data)

/-- Fix 1 `new`. -/
def F1_NEW : List Char :=
  ("#ifdef CONFIG_KSU_SUSFS\n\tANDROID_KABI_USE(4, u64 susfs_mnt_id_backup);\n#else\n\tANDROID_KABI_RESERVE(4);\n#endif\n\x7d __randomize_layout;".data)

/-- susfs_reject_fix.py lines 95-104 (fix 2a, fs/proc_namespace.c), `old`. -/
def F2A_OLD : List Char :=
  ("#include \"internal.h\"\n\nstatic __poll_t mounts_poll".data)

/-- Fix 2a `new`. -/
def F2A_NEW : List Char :=
  ("#include \"internal.h\"\n\n#ifdef CONFIG_KSU_SUSFS_SUS_MOUNT\n#include <linux/susfs_def.h>\nextern bool susfs_hide_sus_mnts_for_non_su_procs;\nextern bool susfs_is_current_ksu_domain(void);\n#endif\n\nstatic __poll_t mounts_poll".data)

/-- susfs_reject_fix.py lines 109-137 (fix 2b, show_mountinfo filter), `old`. -/
def F2B_OLD : List Char :=
  ("static int show_mountinfo(struct seq_file *m, struct vfsmount *mnt)\n\x7b\n\tstruct proc_mounts *p = m->private;\n\tstruct mount *r = real_mount(mnt);\n\tstruct super_block *sb = mnt->mnt_sb;\n\tstruct path mnt_path = \x7b .dentry = mnt->mnt_root, .mnt = mnt \x7d;\n\tint err;\n\n\tseq_printf(m, \"%i %i %u:%u \",".data)

/-- Fix 2b `new`. -/
def F2B_NEW : List Char :=
  ("static int show_mountinfo(struct seq_file *m, struct vfsmount *mnt)\n\x7b\n\tstruct proc_mounts *p = m->private;\n\tstruct mount *r = real_mount(mnt);\n\tstruct super_block *sb = mnt->mnt_sb;\n\tstruct path mnt_path = \x7b .dentry = mnt->mnt_root, .mnt = mnt \x7d;\n\tint err;\n\n#ifdef CONFIG_KSU_SUSFS_SUS_MOUNT\n\tif (susfs_hide_sus_mnts_for_non_su_procs &&\n\t\t\tr->mnt_id >= DEFAULT_KSU_MNT_ID &&\n\t\t\t!susfs_is_current_ksu_domain())\n\t\x7b\n\t\treturn 0;\n\t\x7d\n#endif\n\n\tseq_printf(m, \"%i %i %u:%u \",".data)

/-- susfs_reject_fix.py lines 145-172 (fix 3, fs/proc/cmdline.c), `old`. -/
def F3_OLD : List Char :=
  ("#include <linux/seq_file.h>\n\nstatic int cmdline_proc_show(struct seq_file *m, void *v)\n\x7b\n\tseq_puts(m, saved_command_line);\n\tseq_putc(m, \x27\\n\x27);\n\treturn 0;\n\x7d".data)

/-- Fix 3 `new`. -/
def F3_NEW : List Char :=
  ("#include <linux/seq_file.h>\n\n#ifdef CONFIG_KSU_SUSFS_SPOOF_CMDLINE_OR_BOOTCONFIG\nextern int susfs_spoof_cmdline_or_bootconfig(struct seq_file *m);\n#endif\n\nstatic int cmdline_proc_show(struct seq_file *m, void *v)\n\x7b\n#ifdef CONFIG_KSU_SUSFS_SPOOF_CMDLINE_OR_BOOTCONFIG\n\tif (!susfs_spoof_cmdline_or_bootconfig(m)) \x7b\n\t\tseq_putc(m, \x27\\n\x27);\n\t\treturn 0;\n\t\x7d\n#endif\n\tseq_puts(m, saved_command_line);\n\tseq_putc(m, \x27\\n\x27);\n\treturn 0;\n\x7d".data)

/-- susfs_reject_fix.py lines 178-194 (fix 4a, fs/namei.c fake_pathname
declaration), `old`. -/
def F4A_OLD : List Char :=
  ("struct file *do_filp_open(int dfd, struct filename *pathname,\n\t\tconst struct open_flags *op)\n\x7b\n\tstruct nameidata nd;\n\tint flags = op->lookup_flags;\n\tstruct file *filp;\n".data)

/-- Fix 4a `new`. -/
def F4A_NEW : List Char :=
  ("struct file *do_filp_open(int dfd, struct filename *pathname,\n\t\tconst struct open_flags *op)\n\x7b\n\tstruct nameidata nd;\n\tint flags = op->lookup_flags;\n\tstruct file *filp;\n#ifdef CONFIG_KSU_SUSFS_OPEN_REDIRECT\n\tstruct filename *fake_pathname;\n#endif\n".data)

/-- susfs_reject_fix.py lines 197-204 (fix 4b, extern declaration), `old`. -/
def F4B_OLD : List Char :=
  ("struct file *do_filp_open(int dfd, struct filename *pathname,".data)

/-- Fix 4b `new`. -/
def F4B_NEW : List Char :=
  ("#ifdef CONFIG_KSU_SUSFS_OPEN_REDIRECT\nextern struct filename *susfs_get_redirected_path(unsigned long ino);\n#endif\n\nstruct file *do_filp_open(int dfd, struct filename *pathname,".data)

/-- susfs_reject_fix.py lines 212-247 (fix 4c, OPEN_REDIRECT block), `old`. -/
def F4C_OLD : List Char :=
  ("\tif (unlikely(filp == ERR_PTR(-ESTALE)))\n\t\tfilp = path_openat(&nd, op, flags | LOOKUP_REVAL);\n\trestore_nameidata();\n\treturn filp;\n\x7d\n\nstruct file *do_file_open_root(".data)

/-- Fix 4c `new`. -/
def F4C_NEW : List Char :=
  ("\tif (unlikely(filp == ERR_PTR(-ESTALE)))\n\t\tfilp = path_openat(&nd, op, flags | LOOKUP_REVAL);\n#ifdef CONFIG_KSU_SUSFS_OPEN_REDIRECT\n\tif (!IS_ERR(filp) && unlikely(filp->f_inode->i_state & BIT_OPEN_REDIRECT) &&\n\t\t\tcurrent_uid().val < 11000) \x7b\n\t\tfake_pathname = susfs_get_redirected_path(filp->f_inode->i_ino);\n\t\tif (!IS_ERR(fake_pathname)) \x7b\n\t\t\trestore_nameidata();\n\t\t\tfilp_close(filp, NULL);\n\t\t\t/* no need to putname(pathname) here — done by calling process */\n\t\t\tset_nameidata(&nd, dfd, fake_pathname);\n\t\t\tfilp = path_openat(&nd, op, flags | LOOKUP_RCU);\n\t\t\tif (unlikely(filp == ERR_PTR(-ECHILD)))\n\t\t\t\tfilp = path_openat(&nd, op, flags);\n\t\t\tif (unlikely(filp == ERR_PTR(-ESTALE)))\n\t\t\t\tfilp = path_openat(&nd, op, flags | LOOKUP_REVAL);\n\t\t\trestore_nameidata();\n\t\t\tputname(fake_pathname);\n\t\t\treturn filp;\n\t\t\x7d\n\t\x7d\n#endif\n\trestore_nameidata();\n\treturn filp;\n\x7d\n\nstruct file *do_file_open_root(".data)

/-- susfs_reject_fix.py lines 258-296 (fix 5, kernel/kallsyms.c s_show),
`old`. -/
def F5_OLD : List Char :=
  ("\t\x7d else\n\t\tseq_printf(m, \"%px %c %s\\n\", value,\n\t\t\t   iter->type, iter->name);\n\treturn 0;\n\x7d".data)

/-- Fix 5 `new`. -/
def F5_NEW : List Char :=
  ("\t\x7d else \x7b\n#ifndef CONFIG_KSU_SUSFS_HIDE_KSU_SUSFS_SYMBOLS\n\t\tseq_printf(m, \"%px %c %s\\n\", value,\n\t\t\t   iter->type, iter->name);\n#else\n\t\tif (susfs_starts_with(iter->name, \"ksu_\") ||\n\t\t\tsusfs_starts_with(iter->name, \"__ksu_\") ||\n\t\t\tsusfs_starts_with(iter->name, \"susfs_\") ||\n\t\t\tsusfs_starts_with(iter->name, \"ksud\") ||\n\t\t\tsusfs_starts_with(iter->name, \"is_ksu_\") ||\n\t\t\tsusfs_starts_with(iter->name, \"is_manager_\") ||\n\t\t\tsusfs_starts_with(iter->name, \"escape_to_\") ||\n\t\t\tsusfs_starts_with(iter->name, \"setup_selinux\") ||\n\t\t\tsusfs_starts_with(iter->name, \"track_throne\") ||\n\t\t\tsusfs_starts_with(iter->name, \"on_post_fs_data\") ||\n\t\t\tsusfs_starts_with(iter->name, \"try_umount\") ||\n\t\t\tsusfs_starts_with(iter->name, \"kernelsu\") ||\n\t\t\tsusfs_starts_with(iter->name, \"__initcall__kmod_kernelsu\") ||\n\t\t\tsusfs_starts_with(iter->name, \"apply_kernelsu\") ||\n\t\t\tsusfs_starts_with(iter->name, \"handle_sepolicy\") ||\n\t\t\tsusfs_starts_with(iter->name, \"getenforce\") ||\n\t\t\tsusfs_starts_with(iter->name, \"setenforce\") ||\n\t\t\tsusfs_starts_with(iter->name, \"is_zygote\"))\n\t\t\x7b\n\t\t\treturn 0;\n\t\t\x7d\n\t\tseq_printf(m, \"%px %c %s\\n\", value,\n\t\t\t   iter->type, iter->name);\n#endif\n\t\x7d\n\treturn 0;\n\x7d".data)

/-- The five file contents susfs_reject_fix.py operates on (assuming all
five files exist and are readable; a missing file would raise in `read`,
which is outside the scenario the claims describe). -/
structure SusfsState where
  mount_h : List Char
  proc_namespace_c : List Char
  cmdline_c : List Char
  namei_c : List Char
  kallsyms_c : List Char
deriving DecidableEq

/-- susfs_reject_fix.py lines 74-298 (module toplevel): the eight `fix`
calls run in order, each reading the current content of its file and
writing back the result; every call leaves `required` at its default True.
The return value of every `fix` call is discarded, no `sys.exit` is ever
invoked, and the script ends with `print("\nDone.")`, so the process exit
status is 0 regardless of the outcomes. -/
def susfsRun (st : SusfsState) : SusfsState × List FixOutcome × Nat :=
  let r1 := fixStep st.mount_h F1_OLD F1_NEW true
  let r2a := fixStep st.proc_namespace_c F2A_OLD F2A_NEW true
  let r2b := fixStep r2a.1 F2B_OLD F2B_NEW true
  let r3 := fixStep st.cmdline_c F3_OLD F3_NEW true
  let r4a := fixStep st.namei_c F4A_OLD F4A_NEW true
  let r4b := fixStep r4a.1 F4B_OLD F4B_NEW true
  let r4c := fixStep r4b.1 F4C_OLD F4C_NEW true
  let r5 := fixStep st.kallsyms_c F5_OLD F5_NEW true
  (⟨r1.1, r2b.1, r3.1, r4c.1, r5.1⟩,
   [r1.2.2, r2a.2.2, r2b.2.2, r3.2.2, r4a.2.2, r4b.2.2, r4c.2.2, r5.2.2],
   0)

/-! ## Concrete texts used by the claims -/

/-- The nested-block example of spec section 8 / claim C2. -/
def c2body : List Char :=
  ("#ifdef A\nX\n#ifdef B\nY\n#endif\nZ\n#endif\nTAIL".data)

/-- The signature of the C2 example. -/
def SIGA : List Char := ("#ifdef A".data)

/-- A namei file containing two removable SIG3 blocks (plus the
`susfs_def.h` marker so fix 1 skips): one full fix_namei pass removes only
the first block, so a second pass still changes the text. -/
def c6file : List Char :=
  ("// susfs_def.h\n".data) ++ SIG3 ++ ("\n#endif\n".data)
    ++ SIG3 ++ ("\n#endif\ntail\n".data)

/-- Executable twin of `fixNamei3` (through `removeIfdefBlockE`). -/
def fixNamei3E (src : List Char) : List Char :=
  if pyContains src SIG3 then (removeIfdefBlockE src SIG3).1 else src

/-- Executable twin of `fixNamei4`. -/
def fixNamei4E (src : List Char) : List Char :=
  if pyContains src SIG4 then (removeIfdefBlockE src SIG4).1 else src

/-- Executable twin of `fixNameiText`. -/
def fixNameiTextE (src : List Char) : List Char :=
  fixNamei4E (fixNamei3E (fixNamei2 (fixNamei1 src)).1)

/-! # Theorems

First, correctness lemmas for the Python string primitives, then the
equivalence of the fused scanner with the specification-side scanner, and
finally the claims. -/

/-- A substring occurs in `l` iff it is a prefix of some suffix. -/
theorem infix_iff_exists_drop (pat l : List Char) :
    pat <:+: l ↔ ∃ i, pat <+: l.drop i := by
  constructor
  · rintro ⟨s, t, rfl⟩
    refine ⟨s.length, ?_⟩
    rw [List.append_assoc, List.drop_left]
    exact List.prefix_append pat t
  · rintro ⟨i, hi⟩
    exact hi.isInfix.trans (List.drop_suffix i l).isInfix

/-- `pyFind` returns `none` exactly when the pattern does not occur. -/
theorem pyFind_none_iff (s pat : List Char) : pyFind s pat = none ↔ ¬ pat <:+: s := by
  induction s with
  | nil =>
    by_cases h : pat = [] <;> simp [pyFind, h]
  | cons c rest ih =>
    by_cases hp : pat.isPrefixOf (c :: rest)
    · have hp2 : pat <+: (c :: rest) := List.isPrefixOf_iff_prefix.mp hp
      simp only [pyFind, if_pos hp, List.infix_cons_iff]
      constructor
      · intro hcon
        exact absurd hcon (by simp)
      · intro hcon
        exact absurd (Or.inl hp2) hcon
    · have hp2 : ¬ pat <+: (c :: rest) := fun hc => hp (List.isPrefixOf_iff_prefix.mpr hc)
      simp [pyFind, hp, List.infix_cons_iff, ih, hp2]

/-- `pyFind` returns the index of the first occurrence: the pattern is a
prefix of the suffix at `i` and of no earlier suffix. -/
theorem pyFind_eq_some_iff (s pat : List Char) (i : Nat) :
    pyFind s pat = some i ↔
      pat <+: s.drop i ∧ ∀ j, j < i → ¬ pat <+: s.drop j := by
  induction s generalizing i with
  | nil =>
    by_cases h : pat = []
    · subst h
      rw [show pyFind ([] : List Char) [] = some 0 from rfl]
      simp only [List.drop_nil, Option.some.injEq]
      constructor
      · rintro rfl
        exact ⟨List.nil_prefix, fun j hj => absurd hj (by omega)⟩
      · rintro ⟨-, h2⟩
        by_contra hne
        exact h2 0 (by omega) List.nil_prefix
    · simp only [pyFind, if_neg h, List.drop_nil]
      constructor
      · intro hcon
        exact absurd hcon (by simp)
      · rintro ⟨h1, -⟩
        exact absurd (List.prefix_nil.mp h1) h
  | cons c rest ih =>
    by_cases hp : pat.isPrefixOf (c :: rest)
    · have hp2 : pat <+: (c :: rest) := List.isPrefixOf_iff_prefix.mp hp
      simp only [pyFind, if_pos hp, Option.some.injEq]
      constructor
      · rintro rfl
        exact ⟨hp2, fun j hj => absurd hj (by omega)⟩
      · rintro ⟨-, h2⟩
        by_contra hne
        have hi : 0 < i := by omega
        exact h2 0 hi hp2
    · have hp2 : ¬ pat <+: (c :: rest) := fun hc => hp (List.isPrefixOf_iff_prefix.mpr hc)
      simp only [pyFind, if_neg hp]
      cases i with
      | zero =>
        simp only [List.drop_zero]
        constructor
        · intro hcon
          obtain ⟨r, -, hr2⟩ := Option.map_eq_some'.mp hcon
          exact absurd hr2 (by omega)
        · rintro ⟨h1, -⟩
          exact absurd h1 hp2
      | succ n =>
        constructor
        · intro hcon
          obtain ⟨r, hr1, hr2⟩ := Option.map_eq_some'.mp hcon
          have hrn : r = n := by omega
          rw [hrn] at hr1
          obtain ⟨h1, h2⟩ := (ih n).mp hr1
          refine ⟨h1, fun j hj => ?_⟩
          cases j with
          | zero => simpa using hp2
          | succ m =>
            have hm : m < n := by omega
            simpa using h2 m hm
        · rintro ⟨h1, h2⟩
          have hrest : pyFind rest pat = some n := by
            refine (ih n).mpr ⟨h1, fun j hj => ?_⟩
            have := h2 (j + 1) (by omega)
            simpa using this
          simp [hrest]

/-- The first occurrence fits inside the text. -/
theorem pyFind_some_bound (s pat : List Char) (i : Nat)
    (h : pyFind s pat = some i) : i + pat.length ≤ s.length := by
  induction s generalizing i with
  | nil =>
    by_cases hp : pat = []
    · subst hp
      simp [pyFind] at h
      omega
    · simp [pyFind, hp] at h
  | cons c rest ih =>
    by_cases hp : pat.isPrefixOf (c :: rest)
    · have hp2 : pat <+: (c :: rest) := List.isPrefixOf_iff_prefix.mp hp
      have := hp2.length_le
      simp only [pyFind, if_pos hp, Option.some.injEq] at h
      simp only [List.length_cons] at this ⊢
      omega
    · simp only [pyFind, if_neg hp] at h
      obtain ⟨r, hr1, hr2⟩ := Option.map_eq_some'.mp h
      have := ih r hr1
      simp only [List.length_cons]
      omega

/-- `pyContains` agrees with substring occurrence. -/
theorem pyContains_iff (s pat : List Char) : pyContains s pat = true ↔ pat <:+: s := by
  rw [pyContains, Option.isSome_iff_ne_none, ne_eq, pyFind_none_iff, not_not]

/-- `pyContains` is false exactly when the pattern does not occur. -/
theorem pyContains_false_iff (s pat : List Char) :
    pyContains s pat = false ↔ ¬ pat <:+: s := by
  rw [← pyContains_iff]
  simp

/-- A positive skip counter consumes characters without emitting them. -/
theorem replaceAllAux_skip (pat rep : List Char) :
    ∀ (k : Nat) (s : List Char),
      replaceAllAux pat rep s k = replaceAllAux pat rep (s.drop k) 0 := by
  intro k
  induction k with
  | zero => intro s; rw [List.drop_zero]
  | succ k ihk =>
    intro s
    cases s with
    | nil => rfl
    | cons c rest => simpa [replaceAllAux] using ihk rest

/-- `replaceAllAux` leaves text without an occurrence unchanged. -/
theorem replaceAllAux_of_none (pat rep : List Char) (s : List Char)
    (h : pyFind s pat = none) : replaceAllAux pat rep s 0 = s := by
  induction s with
  | nil => rfl
  | cons c rest ih =>
    by_cases hp : pat.isPrefixOf (c :: rest)
    · simp [pyFind, hp] at h
    · simp only [pyFind, if_neg hp, Option.map_eq_none'] at h
      simp [replaceAllAux, hp, ih h]

/-- One step of `replaceAllAux` at the first occurrence. -/
theorem replaceAllAux_step (pat rep : List Char) (hne : pat ≠ []) :
    ∀ (s : List Char) (i : Nat), pyFind s pat = some i →
      replaceAllAux pat rep s 0 =
        s.take i ++ rep ++ replaceAllAux pat rep (s.drop (i + pat.length)) 0 := by
  intro s
  induction s with
  | nil =>
    intro i h
    simp [pyFind, hne] at h
  | cons c rest ih =>
    intro i h
    obtain ⟨m, hm⟩ : ∃ m, pat.length = m + 1 := by
      cases hpat : pat with
      | nil => exact absurd hpat hne
      | cons a t => exact ⟨t.length, by simp⟩
    by_cases hp : pat.isPrefixOf (c :: rest)
    · have hi : i = 0 := by
        simp only [pyFind, if_pos hp, Option.some.injEq] at h
        omega
      subst hi
      simp only [replaceAllAux, if_pos hp, List.take_zero, List.nil_append]
      rw [replaceAllAux_skip, hm]
      simp [List.drop_succ_cons]
    · simp only [pyFind, if_neg hp] at h
      obtain ⟨r, hr1, hr2⟩ := Option.map_eq_some'.mp h
      have hi : i = r + 1 := by omega
      subst hi
      simp only [replaceAllAux, if_neg hp]
      rw [ih r hr1]
      have harith : r + 1 + pat.length = (r + pat.length) + 1 := by omega
      rw [harith, List.drop_succ_cons, List.take_succ_cons]
      simp

/-- `replaceAll` at a unique occurrence rewrites exactly that span. -/
theorem replaceAll_single (s pat rep : List Char) (i : Nat) (hne : pat ≠ [])
    (h1 : pyFind s pat = some i)
    (h2 : pyFind (s.drop (i + pat.length)) pat = none) :
    replaceAll s pat rep = s.take i ++ rep ++ s.drop (i + pat.length) := by
  rw [replaceAll, if_neg hne, replaceAllAux_step pat rep hne s i h1,
      replaceAllAux_of_none pat rep _ h2]

/-- Whitespace characters are not `#`. -/
theorem isPyWS_ne_hash (c : Char) (h : isPyWS c = true) : c ≠ '#' := by
  intro hc
  rw [hc] at h
  exact absurd h (by decide)

/-- No keyword contains `#`. -/
theorem kwString_ne_hash (k : CondTok) : ∀ x ∈ kwString k, x ≠ '#' := by
  cases k <;> decide

/-- A successful `matchKw` means its keyword heads the input. -/
theorem matchKw_isPrefix (l : List Char) (k : CondTok) (h : matchKw l = some k) :
    (kwString k).isPrefixOf l = true := by
  unfold matchKw at h
  split at h
  · cases h; assumption
  · split at h
    · cases h; assumption
    · split at h
      · rename_i hcond
        cases h
        simp only [Bool.and_eq_true] at hcond
        exact hcond.1
      · split at h
        · cases h; assumption
        · split at h
          · cases h; assumption
          · split at h
            · cases h; assumption
            · exact absurd h (by simp)

/-- Shape of a successful token match: the match is nonempty, consists of
`#` followed by the whitespace run and the keyword, and contains no `#`
after its first character. -/
theorem tryTok_shape (c : Char) (rest : List Char) (k : CondTok) (sp : Bool) (len : Nat)
    (h : tryTok (c :: rest) = some (k, sp, len)) :
    1 ≤ len ∧
    (rest.takeWhile isPyWS ++ kwString k) ++ rest.drop (len - 1) = rest ∧
    (rest.takeWhile isPyWS ++ kwString k).length = len - 1 ∧
    ∀ x ∈ rest.takeWhile isPyWS ++ kwString k, x ≠ '#' := by
  by_cases hc : c = '#'
  · simp only [tryTok, if_pos hc] at h
    cases hmk : matchKw (rest.dropWhile isPyWS) with
    | none => rw [hmk] at h; simp at h
    | some k0 =>
      rw [hmk] at h
      simp only [Option.some.injEq, Prod.mk.injEq] at h
      obtain ⟨hk, hsp, hlen⟩ := h
      subst hk
      have hlen1 : 1 ≤ len := by omega
      have hd : len - 1 = (rest.takeWhile isPyWS).length + (kwString k0).length := by omega
      have hkpre : kwString k0 <+: rest.dropWhile isPyWS :=
        List.isPrefixOf_iff_prefix.mp (matchKw_isPrefix _ _ hmk)
      have hkw : kwString k0 ++ (rest.dropWhile isPyWS).drop (kwString k0).length
          = rest.dropWhile isPyWS := List.prefix_iff_eq_append.mp hkpre
      have hdropsum :
          rest.drop ((rest.takeWhile isPyWS).length + (kwString k0).length)
            = (rest.dropWhile isPyWS).drop (kwString k0).length := by
        have h2 : ((rest.takeWhile isPyWS) ++ (rest.dropWhile isPyWS)).drop
            ((rest.takeWhile isPyWS).length + (kwString k0).length)
              = (rest.dropWhile isPyWS).drop (kwString k0).length := by
          rw [← List.drop_drop, List.drop_left]
        rw [List.takeWhile_append_dropWhile] at h2
        exact h2
      refine ⟨hlen1, ?_, ?_, ?_⟩
      · rw [hd, hdropsum, List.append_assoc, hkw, List.takeWhile_append_dropWhile]
      · rw [hd, List.length_append]
      · intro x hx
        rcases List.mem_append.mp hx with hx1 | hx2
        · exact isPyWS_ne_hash x (List.mem_takeWhile_imp hx1)
        · exact kwString_ne_hash k0 x hx2
  · simp [tryTok, hc] at h

/-- A position not starting with `#` yields no token. -/
theorem tryTok_ne_hash (c : Char) (rest : List Char) (hc : c ≠ '#') :
    tryTok (c :: rest) = none := by
  simp [tryTok, hc]

/-- Shifting by zero is the identity. -/
theorem shiftTok_zero (ts : List (CondTok × Bool × Nat)) : shiftTok 0 ts = ts := by
  simp only [shiftTok]
  have hf : (fun t : CondTok × Bool × Nat => (t.1, t.2.1, t.2.2 + 0)) = fun t => t := by
    funext t
    simp
  rw [hf, List.map_id']

/-- Shifts compose additively. -/
theorem shiftTok_shiftTok (a b : Nat) (ts : List (CondTok × Bool × Nat)) :
    shiftTok a (shiftTok b ts) = shiftTok (b + a) ts := by
  simp only [shiftTok, List.map_map]
  have hf : ((fun t : CondTok × Bool × Nat => (t.1, t.2.1, t.2.2 + a))
      ∘ fun t : CondTok × Bool × Nat => (t.1, t.2.1, t.2.2 + b))
      = fun t : CondTok × Bool × Nat => (t.1, t.2.1, t.2.2 + (b + a)) := by
    funext t
    simp [Function.comp, Nat.add_assoc]
  rw [hf]

/-- `tokenStream` step when no token matches at the head. -/
theorem tokenStream_cons_none (c : Char) (rest : List Char)
    (h : tryTok (c :: rest) = none) :
    tokenStream (c :: rest) = shiftTok 1 (tokenStream rest) := by
  simp [tokenStream, h]

/-- `tokenStream` step when a token matches at the head. -/
theorem tokenStream_cons_some (c : Char) (rest : List Char) (k : CondTok) (sp : Bool)
    (len : Nat) (h : tryTok (c :: rest) = some (k, sp, len)) :
    tokenStream (c :: rest) = (k, sp, len) :: shiftTok 1 (tokenStream rest) := by
  simp [tokenStream, h]

/-- Text free of `#` contributes no tokens, only an offset shift. -/
theorem tokenStream_no_hash (x t : List Char) (hx : ∀ c ∈ x, c ≠ '#') :
    tokenStream (x ++ t) = shiftTok x.length (tokenStream t) := by
  induction x with
  | nil => simp [shiftTok_zero]
  | cons c x2 ihx =>
    have hc : c ≠ '#' := hx c (List.mem_cons_self c x2)
    have hx2 : ∀ a ∈ x2, a ≠ '#' := fun a ha => hx a (List.mem_cons_of_mem c ha)
    rw [List.cons_append, tokenStream_cons_none c (x2 ++ t) (tryTok_ne_hash c _ hc),
        ihx hx2, shiftTok_shiftTok]
    rfl

/-- The token stream after a match is the head token followed by the
stream of the text after the match, shifted: the whole content of a match
after its `#` is whitespace and keyword letters, so no second token can
start inside it. -/
theorem tokenStream_eq_cons (c : Char) (rest : List Char) (k : CondTok) (sp : Bool)
    (len : Nat) (h : tryTok (c :: rest) = some (k, sp, len)) :
    tokenStream (c :: rest)
      = (k, sp, len) :: shiftTok len (tokenStream (rest.drop (len - 1))) := by
  obtain ⟨hlen, hsplit, hmidlen, hmid⟩ := tryTok_shape c rest k sp len h
  rw [tokenStream_cons_some c rest k sp len h]
  congr 1
  have hts : tokenStream rest
      = shiftTok (len - 1) (tokenStream (rest.drop (len - 1))) := by
    calc tokenStream rest
        = tokenStream ((rest.takeWhile isPyWS ++ kwString k) ++ rest.drop (len - 1)) := by
          rw [hsplit]
      _ = shiftTok (rest.takeWhile isPyWS ++ kwString k).length
            (tokenStream (rest.drop (len - 1))) :=
          tokenStream_no_hash _ _ hmid
      _ = shiftTok (len - 1) (tokenStream (rest.drop (len - 1))) := by rw [hmidlen]
  rw [hts, shiftTok_shiftTok]
  congr 1
  omega

/-- Depth scanning over a shifted stream shifts the result. -/
theorem specScan_shift (n : Nat) (ts : List (CondTok × Bool × Nat)) (d : Int) :
    specScan (shiftTok n ts) d = (specScan ts d).map (fun e => e + n) := by
  induction ts generalizing d with
  | nil => rfl
  | cons a ts ih =>
    obtain ⟨k, sp, e⟩ := a
    by_cases h1 : (sp && (k == CondTok.ifdef || k == CondTok.ifndef || k == CondTok.ifkw)) = true
    · simp only [shiftTok, List.map_cons, specScan, if_pos h1]
      simpa [shiftTok] using ih (d + 1)
    · by_cases h2 : (sp && (k == CondTok.endif)) = true
      · by_cases h3 : d - 1 = 0
        · simp only [shiftTok, List.map_cons, specScan, if_neg h1, if_pos h2, if_pos h3]
          rfl
        · simp only [shiftTok, List.map_cons, specScan, if_neg h1, if_pos h2, if_neg h3]
          simpa [shiftTok] using ih (d - 1)
      · simp only [shiftTok, List.map_cons, specScan, if_neg h1, if_neg h2]
        simpa [shiftTok] using ih d

/-- Dropping one more than the head passes to the tail. -/
theorem drop_cons_sub (c : Char) (rest : List Char) (len : Nat) (h : 1 ≤ len) :
    (c :: rest).drop len = rest.drop (len - 1) := by
  obtain ⟨m, rfl⟩ : ∃ m, len = m + 1 := ⟨len - 1, by omega⟩
  simp

/-- The newline extension commutes with an offset shift. -/
theorem extendNL_shift (l : List Char) (n r : Nat) :
    extendNL l (r + n) = extendNL (l.drop n) r + n := by
  unfold extendNL
  rw [show l.drop (r + n) = (l.drop n).drop r from by rw [List.drop_drop, Nat.add_comm]]
  cases (l.drop n).drop r with
  | nil => rfl
  | cons a t =>
    by_cases ha : a = '\n'
    · simp [ha]
      omega
    · simp [ha]

/-- `scanBlockEnd` step when no token matches at the head. -/
theorem scanBlockEnd_cons_none (c : Char) (rest : List Char) (d : Int)
    (h : tryTok (c :: rest) = none) :
    scanBlockEnd (c :: rest) d = (scanBlockEnd rest d).map (fun r => r + 1) := by
  rw [scanBlockEnd]
  simp [h]

/-- `scanBlockEnd` step when a token matches at the head. -/
theorem scanBlockEnd_cons_some (c : Char) (rest : List Char) (k : CondTok) (sp : Bool)
    (len : Nat) (d : Int) (h : tryTok (c :: rest) = some (k, sp, len)) :
    scanBlockEnd (c :: rest) d =
      if sp && (k == CondTok.ifdef || k == CondTok.ifndef || k == CondTok.ifkw) then
        (scanBlockEnd (rest.drop (len - 1)) (d + 1)).map (fun r => r + len)
      else if sp && (k == CondTok.endif) then
        if d - 1 = 0 then
          some (len + (match rest.drop (len - 1) with
                       | c2 :: _ => if c2 = '\n' then 1 else 0
                       | [] => 0))
        else (scanBlockEnd (rest.drop (len - 1)) (d - 1)).map (fun r => r + len)
      else (scanBlockEnd (rest.drop (len - 1)) d).map (fun r => r + len) := by
  rw [scanBlockEnd]
  simp [h]

/-- The fused scanner agrees with the specification-side scan: walking the
matches with a fused depth counter equals lexing every match into a stream,
folding the depth rules over it, and extending the first zero-crossing
`endif` offset over a trailing newline. -/
theorem scanBlockEnd_eq_spec :
    ∀ (n : Nat) (l : List Char) (d : Int), l.length ≤ n →
      scanBlockEnd l d = (specScan (tokenStream l) d).map (extendNL l) := by
  intro n
  induction n with
  | zero =>
    intro l d hl
    have hnil : l = [] := List.eq_nil_of_length_eq_zero (by omega)
    subst hnil
    simp [scanBlockEnd, tokenStream, specScan]
  | succ n ih =>
    intro l d hl
    cases l with
    | nil => simp [scanBlockEnd, tokenStream, specScan]
    | cons c rest =>
      cases htok : tryTok (c :: rest) with
      | none =>
        rw [scanBlockEnd_cons_none c rest d htok, tokenStream_cons_none c rest htok,
            specScan_shift, ih rest d (by simp at hl; omega)]
        cases specScan (tokenStream rest) d with
        | none => rfl
        | some e =>
          simp only [Option.map_some']
          congr 1
          rw [extendNL_shift (c :: rest) 1 e]
          rfl
      | some t =>
        obtain ⟨k, sp, len⟩ := t
        have hlen : 1 ≤ len := (tryTok_shape c rest k sp len htok).1
        have hT : (c :: rest).drop len = rest.drop (len - 1) := drop_cons_sub c rest len hlen
        have hlT : (rest.drop (len - 1)).length ≤ n := by
          have h1 : (rest.drop (len - 1)).length ≤ rest.length := by
            simp [List.length_drop]
          simp only [List.length_cons] at hl
          omega
        rw [scanBlockEnd_cons_some c rest k sp len d htok,
            tokenStream_eq_cons c rest k sp len htok]
        by_cases h1 : (sp && (k == CondTok.ifdef || k == CondTok.ifndef || k == CondTok.ifkw)) = true
        · rw [if_pos h1]
          simp only [specScan, if_pos h1]
          rw [specScan_shift, ih (rest.drop (len - 1)) (d + 1) hlT]
          cases specScan (tokenStream (rest.drop (len - 1))) (d + 1) with
          | none => rfl
          | some e =>
            simp only [Option.map_some']
            congr 1
            rw [extendNL_shift (c :: rest) len e, hT]
        · rw [if_neg h1]
          by_cases h2 : (sp && (k == CondTok.endif)) = true
          · by_cases h3 : d - 1 = 0
            · rw [if_pos h2, if_pos h3]
              simp only [specScan, if_neg h1, if_pos h2, if_pos h3, Option.map_some']
              unfold extendNL
              rw [hT]
              cases rest.drop (len - 1) with
              | nil => simp
              | cons a t2 =>
                by_cases ha : a = '\n'
                · simp [ha]
                · simp [ha]
            · rw [if_pos h2, if_neg h3]
              simp only [specScan, if_neg h1, if_pos h2, if_neg h3]
              rw [specScan_shift, ih (rest.drop (len - 1)) (d - 1) hlT]
              cases specScan (tokenStream (rest.drop (len - 1))) (d - 1) with
              | none => rfl
              | some e =>
                simp only [Option.map_some']
                congr 1
                rw [extendNL_shift (c :: rest) len e, hT]
          · rw [if_neg h2]
            simp only [specScan, if_neg h1, if_neg h2]
            rw [specScan_shift, ih (rest.drop (len - 1)) d hlT]
            cases specScan (tokenStream (rest.drop (len - 1))) d with
            | none => rfl
            | some e =>
              simp only [Option.map_some']
              congr 1
              rw [extendNL_shift (c :: rest) len e, hT]

/-- The scanner of the source, started at depth 0, computes exactly the
specification-side block end. -/
theorem scanBlockEnd_zero_eq (l : List Char) : scanBlockEnd l 0 = specBlockEnd l :=
  scanBlockEnd_eq_spec l.length l 0 le_rfl

/-- `remove_ifdef_block` agrees with its structurally recursive twin. -/
theorem remove_ifdef_block_eq (src sig : List Char) :
    remove_ifdef_block src sig = removeIfdefBlockE src sig := by
  unfold remove_ifdef_block removeIfdefBlockE
  cases hf : pyFind src sig with
  | none => rfl
  | some idx =>
    simp only []
    rw [scanBlockEnd_zero_eq]

/-- Fix 3 agrees with its executable twin. -/
theorem fixNamei3_eq (src : List Char) : fixNamei3 src = fixNamei3E src := by
  unfold fixNamei3 fixNamei3E
  rw [remove_ifdef_block_eq]

/-- Fix 4 agrees with its executable twin. -/
theorem fixNamei4_eq (src : List Char) : fixNamei4 src = fixNamei4E src := by
  unfold fixNamei4 fixNamei4E
  rw [remove_ifdef_block_eq]

/-- The whole fix_namei text pass agrees with its executable twin. -/
theorem fixNameiText_eq (src : List Char) : fixNameiText src = fixNameiTextE src := by
  unfold fixNameiText fixNameiTextE
  rw [fixNamei3_eq, fixNamei4_eq]

/-- An occurrence found by `pyFind` is an occurrence. -/
theorem pyFind_some_occurs (s pat : List Char) (i : Nat)
    (h : pyFind s pat = some i) : pat <:+: s :=
  (infix_iff_exists_drop pat s).mpr ⟨i, ((pyFind_eq_some_iff s pat i).mp h).1⟩

/-- C1: for a text containing the signature followed by a correctly nested
matching terminator (the signature is first found at `idx` and the
specification-side scan of the suffix yields an end offset `e`, the
position just after the depth-zero-crossing `endif` extended over a
trailing newline), `remove_ifdef_block` returns `found = true` and the
concatenation of everything strictly before the signature with everything
from the end offset on; the original text decomposes as that prefix, the
deleted span, and that suffix, so no byte outside the deleted span
changes. -/
theorem claim_C1_block_excision (src sig : List Char) (idx e : Nat)
    (h1 : sig <+: src.drop idx)
    (h2 : ∀ j, j < idx → ¬ sig <+: src.drop j)
    (h3 : specBlockEnd (src.drop idx) = some e) :
    remove_ifdef_block src sig = (src.take idx ++ src.drop (idx + e), true) ∧
    src = src.take idx ++ ((src.drop idx).take e ++ src.drop (idx + e)) := by
  have hf : pyFind src sig = some idx := (pyFind_eq_some_iff src sig idx).mpr ⟨h1, h2⟩
  constructor
  · rw [remove_ifdef_block_eq]
    unfold removeIfdefBlockE
    simp [hf, h3]
  · have h4 : (src.drop idx).take e ++ src.drop (idx + e) = src.drop idx := by
      rw [← List.drop_drop, List.take_append_drop]
    rw [h4, List.take_append_drop]

/-- Witness for C1 at a concrete balanced input. -/
theorem claim_C1_block_excision_witness :
    specBlockEnd (("A\n#ifdef X\nbody\n#endif\nrest".data).drop 2) = some 21 ∧
    remove_ifdef_block ("A\n#ifdef X\nbody\n#endif\nrest".data) ("#ifdef X".data)
      = (("A\n#ifdef X\nbody\n#endif\nrest".data).take 2
          ++ ("A\n#ifdef X\nbody\n#endif\nrest".data).drop (2 + 21), true) :=
  ⟨by decide,
   (claim_C1_block_excision ("A\n#ifdef X\nbody\n#endif\nrest".data) ("#ifdef X".data)
      2 21 (by decide) (by decide) (by decide)).1⟩

/-- C2: nested conditionals are deleted through the outer `#endif`, per the
depth rules (`if`/`ifdef`/`ifndef` +1, `endif` -1, `else`/`elif` 0, end at
the first `endif` reaching depth 0).  For signature `#ifdef A` applied to
`#ifdef A\nX\n#ifdef B\nY\n#endif\nZ\n#endif\nTAIL` after any prefix in
which the signature does not occur, the result is exactly the prefix
followed by `TAIL`. -/
theorem claim_C2_nested_outer_endif (p : List Char)
    (h : ∀ j, j < p.length → ¬ SIGA <+: (p ++ c2body).drop j) :
    remove_ifdef_block (p ++ c2body) SIGA = (p ++ ("TAIL".data), true) := by
  have hpre : SIGA <+: (p ++ c2body).drop p.length := by
    rw [List.drop_left]
    decide
  have hf : pyFind (p ++ c2body) SIGA = some p.length :=
    (pyFind_eq_some_iff _ _ _).mpr ⟨hpre, h⟩
  have hscan : specBlockEnd ((p ++ c2body).drop p.length) = some 38 := by
    rw [List.drop_left]
    decide
  rw [remove_ifdef_block_eq]
  unfold removeIfdefBlockE
  simp only [hf, hscan]
  rw [List.take_left, ← List.drop_drop, List.drop_left,
      show c2body.drop 38 = ("TAIL".data) from by decide]

/-- Witness for C2 with the concrete prefix `int x;` and newline. -/
theorem claim_C2_nested_outer_endif_witness :
    remove_ifdef_block (("int x;\n".data) ++ c2body) SIGA
      = (("int x;\n".data) ++ ("TAIL".data), true) :=
  claim_C2_nested_outer_endif ("int x;\n".data) (by decide)

/-- C3 counterexample: on a present-but-unbalanced input the function
returns the unchanged text with `found = false` — the same shape
`(text, false)` the absent case returns — so the two failure modes are not
observably different in the return value, contrary to the claim. -/
theorem claim_C3_counterexample :
    pyFind ("#ifdef A\nX\n".data) ("#ifdef A".data) = some 0 ∧
    remove_ifdef_block ("#ifdef A\nX\n".data) ("#ifdef A".data)
      = (("#ifdef A\nX\n".data), false) ∧
    remove_ifdef_block ("X\n".data) ("#ifdef A".data) = (("X\n".data), false) := by
  refine ⟨by decide, ?_, ?_⟩ <;> rw [remove_ifdef_block_eq] <;> decide

/-- C3 amended: when the signature is present (first occurrence at `idx`)
but no depth-zero-crossing `endif` follows, `remove_ifdef_block` returns
the original text unchanged with `found = false` — the same return value
as the absent case; the caller can only distinguish the two modes by
checking for the signature itself. -/
theorem claim_C3_unbalanced_returns_false (src sig : List Char) (idx : Nat)
    (h1 : sig <+: src.drop idx)
    (h2 : ∀ j, j < idx → ¬ sig <+: src.drop j)
    (h3 : specBlockEnd (src.drop idx) = none) :
    remove_ifdef_block src sig = (src, false) := by
  have hf : pyFind src sig = some idx := (pyFind_eq_some_iff src sig idx).mpr ⟨h1, h2⟩
  rw [remove_ifdef_block_eq]
  unfold removeIfdefBlockE
  simp [hf, h3]

/-- Witness for the amended C3 on the unbalanced concrete input. -/
theorem claim_C3_unbalanced_returns_false_witness :
    remove_ifdef_block ("#ifdef A\nX\n".data) ("#ifdef A".data)
      = (("#ifdef A\nX\n".data), false) :=
  claim_C3_unbalanced_returns_false ("#ifdef A\nX\n".data) ("#ifdef A".data) 0
    (by decide) (by decide) (by decide)

/-- C7: when the signature does not occur in the text,
`remove_ifdef_block` returns the text unchanged with `found = false`; in
particular reapplying it to the output of a successful removal, where the
signature no longer occurs, is a safe no-op reporting not-found. -/
theorem claim_C7_absent_noop (src sig : List Char) (h : ¬ sig <:+: src) :
    remove_ifdef_block src sig = (src, false) := by
  have hf : pyFind src sig = none := (pyFind_none_iff src sig).mpr h
  unfold remove_ifdef_block
  simp [hf]

/-- Witness for C7: the signature `#ifdef A` does not occur in `TAIL`, the
output of the successful C2 removal with empty prefix. -/
theorem claim_C7_absent_noop_witness :
    remove_ifdef_block ("TAIL".data) ("#ifdef A".data) = (("TAIL".data), false) :=
  claim_C7_absent_noop ("TAIL".data) ("#ifdef A".data) (by decide)

/-- C4 (code bug): on a missing target file, fix_namei is a successful
no-op (returns True, exit 0) as the claim says, but fix_task_mmu prints
`[SKIP]` yet returns False, so its process exits 1 instead of 0 — the
`return False` on the missing-file path contradicts the script's own
`[SKIP]`/`[FAIL]` convention (every other `[SKIP]` path returns True). -/
theorem claim_C4_missing_file_divergence :
    fix_namei none = (FileAction.noWrite, true) ∧
    fixNameiMainExit 2 none = 0 ∧
    fix_task_mmu none = PyResult.ok (FileAction.noWrite, false) ∧
    fixTaskMmuExit none = 1 := by
  refine ⟨rfl, rfl, rfl, rfl⟩

/-- C9: whenever the content contains `find_vma(mm, start_vaddr)` but not
`pagemap_read`, the already-patched pre-check of fix_task_mmu evaluates
`src.index('pagemap_read')` and raises ValueError: the error branch of the
pre-check is not total. -/
theorem claim_C9_precheck_value_error (src : List Char)
    (hF : FINDVMA <:+: src) (hP : ¬ PAGEMAP <:+: src) :
    fix_task_mmu (some src) = PyResult.valueError := by
  have h1 : pyContains src FINDVMA = true := (pyContains_iff _ _).mpr hF
  have h2 : pyFind src PAGEMAP = none := (pyFind_none_iff _ _).mpr hP
  unfold fix_task_mmu
  simp [h1, h2]

/-- Witness for C9: a file that is exactly the `find_vma` call. -/
theorem claim_C9_precheck_value_error_witness :
    fix_task_mmu (some ("find_vma(mm, start_vaddr)".data)) = PyResult.valueError :=
  claim_C9_precheck_value_error ("find_vma(mm, start_vaddr)".data)
    (by decide) (by decide)

/-- C10: fix_namei returns True on every execution path — missing file, no
changes needed, or changes applied (warnings included) — so with exactly
one kernel-root argument the fix_namei process always exits 0. -/
theorem claim_C10_always_exit_zero (file : Option (List Char)) :
    (fix_namei file).2 = true ∧ fixNameiMainExit 2 file = 0 := by
  have hb : (fix_namei file).2 = true := by
    cases file with
    | none => rfl
    | some src =>
      unfold fix_namei
      by_cases h : fixNameiText src = src
      · simp [h]
      · simp [h]
  refine ⟨hb, ?_⟩
  unfold fixNameiMainExit
  simp [hb]

/-- C5 counterexample: a run of susfs_reject_fix.py in which every required
fix call reports failure (anchor and end state both absent — here on empty
files) still terminates with exit status 0, because the module toplevel
discards every `fix` return value and never calls `sys.exit`. -/
theorem claim_C5_counterexample :
    (susfsRun ⟨[], [], [], [], []⟩).2.1
      = List.replicate 8 FixOutcome.failedRequired ∧
    (susfsRun ⟨[], [], [], [], []⟩).2.2 = 0 := by
  refine ⟨?_, rfl⟩
  decide

/-- C5 amended: when a required fix's anchor is absent and the desired end
state is not present, `fix` reports failure (returns False with a `[FAIL]`
outcome), and an optional fix in the same scenario returns False with a
`[WARN]` outcome; but the susfs_reject_fix.py toplevel ignores these
results, so the process exit status is 0 regardless.  (The per-file
scripts fix_namei.py and fix_task_mmu_pagemap.py do map their result to
the exit code; susfs_reject_fix.py does not.) -/
theorem claim_C5_fail_reported_exit_zero (content old new : List Char)
    (h1 : ¬ old <:+: content) (h2 : ¬ new <:+: content) :
    fixStep content old new true = (content, false, FixOutcome.failedRequired) ∧
    fixStep content old new false = (content, false, FixOutcome.warnOptional) ∧
    ∀ st : SusfsState, (susfsRun st).2.2 = 0 := by
  have hco : pyContains content old = false := (pyContains_false_iff _ _).mpr h1
  have hcn : pyContains content new = false := (pyContains_false_iff _ _).mpr h2
  refine ⟨?_, ?_, fun st => rfl⟩ <;> unfold fixStep <;> simp [hco, hcn]

/-- Witness for the amended C5 on the first mount.h fix with empty file
content. -/
theorem claim_C5_fail_reported_exit_zero_witness :
    fixStep [] F1_OLD F1_NEW true = ([], false, FixOutcome.failedRequired) :=
  (claim_C5_fail_reported_exit_zero [] F1_OLD F1_NEW
    (by simp [List.infix_nil]; decide) (by simp [List.infix_nil]; decide)).1

/-- `countOccAux` counts zero when the pattern does not occur. -/
theorem countOccAux_eq_zero (pat : List Char) (s : List Char)
    (h : pyFind s pat = none) : countOccAux pat s 0 = 0 := by
  induction s with
  | nil => rfl
  | cons c rest ih =>
    by_cases hp : pat.isPrefixOf (c :: rest)
    · simp [pyFind, hp] at h
    · simp only [pyFind, if_neg hp, Option.map_eq_none'] at h
      simp [countOccAux, hp, ih h]

/-- A count of one means the pattern occurs. -/
theorem countOcc_one_occurs (s pat : List Char) (hne : pat ≠ [])
    (h : countOcc s pat = 1) : pat <:+: s := by
  rw [countOcc, if_neg hne] at h
  cases hf : pyFind s pat with
  | none => rw [countOccAux_eq_zero pat s hf] at h; omega
  | some i => exact pyFind_some_occurs s pat i hf

/-- The segment slice is contained in the file text. -/
theorem taskMmuSegment_occurs (src : List Char) (prIdx : Nat) :
    taskMmuSegment src prIdx <:+: src := by
  unfold taskMmuSegment
  cases pyFind (src.drop (prIdx + 1)) NLSTATIC with
  | none => exact (List.drop_suffix _ _).isInfix
  | some j =>
    exact ((List.drop_suffix _ _).isInfix).trans
      (List.IsPrefix.isInfix ⟨src.drop (prIdx + 1 + j), List.take_append_drop _ _⟩)

set_option maxRecDepth 8192 in
/-- The injected guard block strictly lengthens the file, so the written
text always differs from what was read. -/
theorem applyGuard_ne_self (src anchor : List Char) (hocc : anchor <:+: src) :
    applyGuard src anchor ≠ src := by
  have hf : pyFind src anchor ≠ none := fun hno => (pyFind_none_iff _ _).mp hno hocc
  obtain ⟨i, hi⟩ := Option.ne_none_iff_exists'.mp hf
  have hbound := pyFind_some_bound src anchor i hi
  have hG : 1 ≤ GUARD_BLOCK.length := by decide
  have hr : anchor.length + 1 ≤
      (splitNL1 anchor).1.length + (1 + (GUARD_BLOCK.length + (splitNL1 anchor).2.length)) := by
    cases hnl : pyFind anchor ('\n' :: []) with
    | none =>
      have hsp : splitNL1 anchor = (anchor, []) := by unfold splitNL1; rw [hnl]
      rw [hsp]
      simp
    | some m =>
      have hb2 := pyFind_some_bound anchor ('\n' :: []) m hnl
      simp only [List.length_cons, List.length_nil] at hb2
      have hsp : splitNL1 anchor = (anchor.take m, anchor.drop (m + 1)) := by
        unfold splitNL1; rw [hnl]
      rw [hsp]
      simp only [List.length_take, List.length_drop]
      omega
  have happ : applyGuard src anchor
      = src.take i ++ ((splitNL1 anchor).1 ++ ('\n' :: []) ++ GUARD_BLOCK
          ++ (splitNL1 anchor).2) ++ src.drop (i + anchor.length) := by
    unfold applyGuard replaceOne
    rw [hi]
  intro heq
  rw [happ] at heq
  have hlen := congrArg List.length heq
  simp only [List.length_append, List.length_take, List.length_drop,
    List.length_cons, List.length_nil] at hlen
  omega

/-- A write outcome of the anchor stage writes a text that differs from
the one read: the chosen anchor occurs, and the guard strictly lengthens
the file. -/
theorem taskMmuAnchorStage_write (src w : List Char) (e : Bool)
    (h : taskMmuAnchorStage src = PyResult.ok (FileAction.write w, e)) : w ≠ src := by
  unfold taskMmuAnchorStage at h
  split at h
  · rename_i h1
    simp only [PyResult.ok.injEq, Prod.mk.injEq, FileAction.write.injEq] at h
    rw [← h.1]
    exact applyGuard_ne_self src ANCHOR_MODERN
      (countOcc_one_occurs src ANCHOR_MODERN (by decide) h1)
  · split at h
    · rename_i h2
      simp only [PyResult.ok.injEq, Prod.mk.injEq, FileAction.write.injEq] at h
      rw [← h.1]
      exact applyGuard_ne_self src ANCHOR_LEGACY
        (countOcc_one_occurs src ANCHOR_LEGACY (by decide) h2)
    · split at h
      · exact absurd h (by simp)
      · rename_i prIdx hpr
        split at h
        · rename_i h3
          simp only [PyResult.ok.injEq, Prod.mk.injEq, FileAction.write.injEq] at h
          rw [← h.1]
          exact applyGuard_ne_self src ANCHOR_MODERN
            (((pyContains_iff _ _).mp h3).trans (taskMmuSegment_occurs src prIdx))
        · split at h
          · rename_i h4
            simp only [PyResult.ok.injEq, Prod.mk.injEq, FileAction.write.injEq] at h
            rw [← h.1]
            exact applyGuard_ne_self src ANCHOR_LEGACY
              (((pyContains_iff _ _).mp h4).trans (taskMmuSegment_occurs src prIdx))
          · exact absurd h (by simp)

/-- Any write outcome of fix_task_mmu comes from the anchor stage (the
pre-check paths never write). -/
theorem fix_task_mmu_write (src w : List Char) (e : Bool)
    (h : fix_task_mmu (some src) = PyResult.ok (FileAction.write w, e)) :
    taskMmuAnchorStage src = PyResult.ok (FileAction.write w, e) := by
  have hred : fix_task_mmu (some src) = (if pyContains src FINDVMA then
      match pyFind src PAGEMAP with
      | none => PyResult.valueError
      | some pr =>
        if pyContains (src.drop pr) BITSUS then
          if pyContains ((src.drop pr).take 4000) BITSUS
              && pyContains ((src.drop pr).take 4000) FINDVMA then
            PyResult.ok (FileAction.noWrite, true)
          else taskMmuAnchorStage src
        else taskMmuAnchorStage src
    else taskMmuAnchorStage src) := rfl
  rw [hred] at h
  split at h
  · split at h
    · exact absurd h (by simp)
    · split at h
      · split at h
        · exact absurd h (by simp)
        · exact h
      · exact h
  · exact h

set_option maxRecDepth 40000 in
/-- C6 counterexample: the full fix_namei pass is not idempotent for every
file content.  On a file with two removable SIG3 blocks, one pass removes
only the first block, so running the pass again still changes the text —
the second run performs another removal and another file write, instead of
reporting everything as already applied. -/
theorem claim_C6_counterexample :
    fixNameiText (fixNameiText c6file) ≠ fixNameiText c6file := by
  simp only [fixNameiText_eq]
  decide

/-- C6 amended: what the code guarantees is the write-back condition, not
idempotence: fix_namei writes its file back exactly when the transformed
text differs from the text originally read, and fix_task_mmu only ever
writes a text that strictly extends — hence differs from — the text it
read.  (Idempotence of the second run fails in general, see the
counterexample.) -/
theorem claim_C6_write_only_if_changed (src : List Char) :
    ((fix_namei (some src)).1 = FileAction.noWrite ↔ fixNameiText src = src) ∧
    (∀ w e, fix_task_mmu (some src) = PyResult.ok (FileAction.write w, e) → w ≠ src) := by
  constructor
  · unfold fix_namei
    by_cases h : fixNameiText src = src
    · simp [h]
    · simp [h]
  · intro w e hw
    exact taskMmuAnchorStage_write src w e (fix_task_mmu_write src w e hw)

set_option maxRecDepth 40000 in
/-- Witness for the amended C6: a file containing the modern anchor once;
fix_task_mmu writes the guarded text, which differs from the input. -/
theorem claim_C6_write_only_if_changed_witness :
    fix_task_mmu (some (("abc\n".data) ++ ANCHOR_MODERN ++ ("\nxyz\n".data)))
      = PyResult.ok (FileAction.write
          (applyGuard (("abc\n".data) ++ ANCHOR_MODERN ++ ("\nxyz\n".data)) ANCHOR_MODERN),
          true) ∧
    applyGuard (("abc\n".data) ++ ANCHOR_MODERN ++ ("\nxyz\n".data)) ANCHOR_MODERN
      ≠ (("abc\n".data) ++ ANCHOR_MODERN ++ ("\nxyz\n".data)) :=
  ⟨by decide,
   (claim_C6_write_only_if_changed (("abc\n".data) ++ ANCHOR_MODERN ++ ("\nxyz\n".data))).2
     _ true (by decide)⟩

/-- C8: for a file containing the wrong field access
`filp->f_inode->i_state & BIT_OPEN_REDIRECT` at exactly one location
(an occurrence at `i` and at no other position), fix 2 of fix_namei
replaces it there with
`filp->f_inode->i_mapping->flags & BIT_OPEN_REDIRECT`, reporting applied;
a second pass over the corrected file (in which the wrong access no longer
occurs) leaves that text unchanged, reporting already-correct. -/
theorem claim_C8_wrong_field_single_fix (src : List Char) (i : Nat)
    (h1 : WRONG <+: src.drop i)
    (h2 : ∀ j, j ≤ src.length → j ≠ i → ¬ WRONG <+: src.drop j)
    (h3 : pyFind (src.take i ++ CORRECT ++ src.drop (i + WRONG.length)) WRONG = none) :
    fixNamei2 src
      = (src.take i ++ CORRECT ++ src.drop (i + WRONG.length), Fix2Status.applied) ∧
    fixNamei2 (src.take i ++ CORRECT ++ src.drop (i + WRONG.length))
      = (src.take i ++ CORRECT ++ src.drop (i + WRONG.length),
         Fix2Status.alreadyCorrect) := by
  have hne : WRONG ≠ [] := by decide
  have hwl : 1 ≤ WRONG.length := by decide
  have hile : i ≤ src.length := by
    by_contra hgt
    have hnil : src.drop i = [] := List.drop_eq_nil_of_le (by omega)
    rw [hnil] at h1
    exact hne (List.prefix_nil.mp h1)
  have hfi : pyFind src WRONG = some i :=
    (pyFind_eq_some_iff _ _ _).mpr ⟨h1, fun j hj => h2 j (by omega) (by omega)⟩
  have hrest : pyFind (src.drop (i + WRONG.length)) WRONG = none := by
    rw [pyFind_none_iff]
    intro hcon
    obtain ⟨j, hj⟩ := (infix_iff_exists_drop _ _).mp hcon
    rw [List.drop_drop] at hj
    by_cases hje : i + WRONG.length + j ≤ src.length
    · exact h2 _ hje (by omega) hj
    · have hnil : src.drop (i + WRONG.length + j) = [] :=
        List.drop_eq_nil_of_le (by omega)
      rw [hnil] at hj
      exact hne (List.prefix_nil.mp hj)
  have happ := replaceAll_single src WRONG CORRECT i hne hfi hrest
  have hc1 : pyContains src WRONG = true := by rw [pyContains, hfi]; rfl
  have hc2 : ¬ pyContains (src.take i ++ CORRECT ++ src.drop (i + WRONG.length)) WRONG
      = true := by
    rw [pyContains, h3]
    simp
  have hc3 : pyContains (src.take i ++ CORRECT ++ src.drop (i + WRONG.length)) CORRECT
      = true :=
    (pyContains_iff _ _).mpr ⟨src.take i, src.drop (i + WRONG.length), rfl⟩
  constructor
  · unfold fixNamei2
    rw [if_pos hc1, happ]
  · unfold fixNamei2
    rw [if_neg hc2, if_pos hc3]

set_option maxRecDepth 40000 in
/-- Witness for C8 at a one-line file containing the wrong access once. -/
theorem claim_C8_wrong_field_single_fix_witness :
    fixNamei2 ("ok = filp->f_inode->i_state & BIT_OPEN_REDIRECT;\n".data)
      = ((("ok = filp->f_inode->i_state & BIT_OPEN_REDIRECT;\n".data)).take 5
          ++ CORRECT
          ++ (("ok = filp->f_inode->i_state & BIT_OPEN_REDIRECT;\n".data)).drop
              (5 + WRONG.length),
         Fix2Status.applied) :=
  (claim_C8_wrong_field_single_fix
    ("ok = filp->f_inode->i_state & BIT_OPEN_REDIRECT;\n".data) 5
    (by decide) (by decide) (by decide)).1
